import Mathlib

/-!
Verification of the Future-Cart customer purchase-prediction pipeline.

Shallow embedding of the Python sources:
  src/utils/data_loader.py          (DataLoader)
  src/utils/feature_engineering.py  (FeatureEngineer)
  src/utils/evaluation.py           (ModelEvaluator)

Modelling conventions:
  - pandas timestamps are integers counting days since 1970-01-01
    (all date arithmetic in the sources is whole-day arithmetic);
  - float64 arithmetic is modelled by exact rationals;
  - a numeric cell is a `Val`: a rational, the square root of a rational
    (pandas `std`), or NaN (pandas `std` of a single observation);
  - a pandas DataFrame of transactions is `TxnDF`: a list of typed rows plus
    the optional `is_return` column (tracked separately because
    `create_return_features` assigns that column on its argument in place;
    every function returns its output together with the post-call state of
    its argument frame, making in-place mutation observable);
  - a pandas DataFrame of per-customer features is `FeatDF`: a list of
    column names plus rows of cells;
  - Python string comparison (used by `Series.mode`, `get_dummies` and
    `str.startswith`) is code-point lexicographic comparison on the
    character list of the string.
-/

/-- A numeric cell: a rational, `sq q` standing for the (irrational in
general) square root of `q` as produced by pandas `std`, or NaN. -/
inductive Val where
  | num (q : Rat)
  | sq (q : Rat)
  | nan
deriving DecidableEq, Repr

/-- Code-point lexicographic strict comparison of character lists,
as Python compares strings. -/
def charListLtB : List Char → List Char → Bool
  | [], [] => false
  | [], _ :: _ => true
  | _ :: _, [] => false
  | a :: as, b :: bs => if a < b then true else if b < a then false else charListLtB as bs

/-- Python string `<`. -/
def strLtB (a b : String) : Bool := charListLtB a.data b.data

/-- Python string `<=` (total order used when pandas sorts string values). -/
def strLeB (a b : String) : Bool := !(strLtB b a)

/-- Python `str.startswith`. -/
def pyStartsWith (s pre : String) : Bool := pre.data.isPrefixOf s.data

/-- `pandas.Series.unique`: the distinct values in first-seen order. -/
def uniqueFirst {α : Type} [DecidableEq α] : List α → List α
  | [] => []
  | x :: xs => x :: (uniqueFirst xs).filter (fun y => decide (y ≠ x))

/-- Ascending stable sort of string values (pandas sorts with a stable sort;
the order is Python string order). -/
def sortStrings (l : List String) : List String :=
  l.insertionSort (fun a b => strLeB a b = true)

/-- Ascending sort of integer keys (`groupby` sorts its keys). -/
def sortInts (l : List Int) : List Int :=
  l.insertionSort (fun a b : Int => a ≤ b)

/-- Maximum of a list of integers with a default for the empty list
(`Series.max`; every group this is applied to is non-empty). -/
def listMaxD (l : List Int) (d : Int) : Int :=
  match l with
  | [] => d
  | x :: xs => xs.foldl max x

/-- Minimum of a list of integers with a default for the empty list
(`Series.min`; every group this is applied to is non-empty). -/
def listMinD (l : List Int) (d : Int) : Int :=
  match l with
  | [] => d
  | x :: xs => xs.foldl min x

/-- Arithmetic mean of rationals (`Series.mean`). -/
def meanR (xs : List Rat) : Rat := xs.sum / (xs.length : Rat)

/-- pandas sample standard deviation (`ddof = 1`): NaN for fewer than two
observations, otherwise the square root of the sample variance. -/
def sampleStd (xs : List Rat) : Val :=
  if xs.length ≤ 1 then Val.nan
  else Val.sq ((xs.map (fun x => (x - meanR xs) ^ 2)).sum / ((xs.length : Rat) - 1))

/-- `Timestamp.dayofweek` for a day count since 1970-01-01 (a Thursday):
Monday = 0. -/
def dayOfWeek (z : Int) : Int := (z + 3) % 7

/-- Month (1..12) of a day count since 1970-01-01, by the standard civil
calendar algorithm (C-style truncating division, as in its reference
formulation). -/
def monthOfDay (z : Int) : Int :=
  let z' := z + 719468
  let era := Int.tdiv (if 0 ≤ z' then z' else z' - 146096) 146097
  let doe := z' - era * 146097
  let yoe := Int.tdiv (doe - Int.tdiv doe 1460 + Int.tdiv doe 36524 - Int.tdiv doe 146096) 365
  let doy := doe - (365 * yoe + Int.tdiv yoe 4 - Int.tdiv yoe 100)
  let mp := Int.tdiv (5 * doy + 2) 153
  if mp < 10 then mp + 3 else mp - 9

/-- One row of the transaction table consumed by the feature stage
(the columns `create_all_features` actually reads; `UnitPrice` is never
read there and is omitted). -/
structure Txn where
  invoiceNo : String
  stockCode : String
  descriptionTxt : String
  quantity : Int
  invoiceDate : Int
  customerID : Int
  country : String
  totalAmount : Rat
deriving DecidableEq, Repr

/-- A transaction DataFrame: rows plus the optional `is_return` column,
kept separate so that the in-place assignment performed by
`create_return_features` is observable. -/
structure TxnDF where
  rows : List Txn
  isReturnCol : Option (List Bool)
deriving DecidableEq, Repr

/-- A per-customer feature DataFrame: column names and rows of cells. -/
structure FeatDF where
  cols : List String
  rows : List (List Val)
deriving DecidableEq, Repr

/-- Position of a column (first occurrence), as pandas column lookup. -/
def FeatDF.colIdx (f : FeatDF) (c : String) : Nat := f.cols.indexOf c

/-- The cell of a row at a named column. -/
def FeatDF.cell (f : FeatDF) (row : List Val) (c : String) : Val :=
  row.getD (f.colIdx c) Val.nan

/-- A named column as a list of cells. -/
def FeatDF.col (f : FeatDF) (c : String) : List Val :=
  f.rows.map (fun r => f.cell r c)

/-- `df[names]`: column selection/reordering. -/
def FeatDF.select (f : FeatDF) (ns : List String) : FeatDF :=
  ⟨ns, f.rows.map (fun r => ns.map (fun c => f.cell r c))⟩

/-- The rows of the transaction frame belonging to one customer, in input
order (a `groupby` group). -/
def rowsOf (df : TxnDF) (c : Int) : List Txn :=
  df.rows.filter (fun r => decide (r.customerID = c))

/-- The sorted distinct customer ids (`groupby('CustomerID')` keys). -/
def customersSorted (df : TxnDF) : List Int :=
  sortInts (uniqueFirst (df.rows.map (fun r => r.customerID)))

/-- The distinct customer ids in first-seen order (`df['CustomerID'].unique()`). -/
def customersFirstSeen (df : TxnDF) : List Int :=
  uniqueFirst (df.rows.map (fun r => r.customerID))

namespace FeatureEngineer

/-- `create_rfm_features` (feature_engineering.py:26-66): recency, frequency
and monetary aggregates per customer. Reads its argument only. -/
def create_rfm_features (referenceDate : Int) (df : TxnDF) : FeatDF × TxnDF :=
  (⟨["CustomerID", "recency_days", "frequency", "monetary", "total_monetary",
     "total_transactions", "unique_invoices"],
    (customersSorted df).map (fun c =>
      let rs := rowsOf df c
      let lastDate := listMaxD (rs.map (fun r => r.invoiceDate)) 0
      let n : Nat := rs.length
      let amt : Rat := (rs.map (fun r => r.totalAmount)).sum
      let inv : Nat := (uniqueFirst (rs.map (fun r => r.invoiceNo))).length
      [Val.num (c : Rat), Val.num ((referenceDate - lastDate : Int) : Rat),
       Val.num (n : Rat), Val.num (amt / (n : Rat)), Val.num amt,
       Val.num (n : Rat), Val.num (inv : Rat)])⟩,
   df)

/-- `create_basket_diversity_features` (feature_engineering.py:68-104):
distinct products/descriptions plus average basket size and value per
customer. Reads its argument only. -/
def create_basket_diversity_features (df : TxnDF) : FeatDF × TxnDF :=
  (⟨["CustomerID", "unique_products", "unique_descriptions",
     "avg_basket_size", "avg_basket_value"],
    (customersSorted df).map (fun c =>
      let rs := rowsOf df c
      let up : Nat := (uniqueFirst (rs.map (fun r => r.stockCode))).length
      let ud : Nat := (uniqueFirst (rs.map (fun r => r.descriptionTxt))).length
      let invoices := uniqueFirst (rs.map (fun r => r.invoiceNo))
      let sizes : List Rat :=
        invoices.map (fun i => ((rs.filter (fun r => decide (r.invoiceNo = i))).length : Rat))
      let values : List Rat :=
        invoices.map (fun i => ((rs.filter (fun r => decide (r.invoiceNo = i))).map
          (fun r => r.totalAmount)).sum)
      [Val.num (c : Rat), Val.num (up : Rat), Val.num (ud : Rat),
       Val.num (meanR sizes), Val.num (meanR values)])⟩,
   df)

/-- `create_momentum_features` (feature_engineering.py:106-170): 30/90/180
day spend windows and ratios per customer, iterating customers in
first-seen order. Reads its argument only. -/
def create_momentum_features (referenceDate : Int) (df : TxnDF) : FeatDF × TxnDF :=
  let window30 := referenceDate - 30
  let window90 := referenceDate - 90
  let window180 := referenceDate - 180
  (⟨["CustomerID", "spend_30d", "spend_90d", "spend_ratio_30d_90d",
     "spend_ratio_90d_180d", "freq_30d", "freq_90d",
     "transactions_30d", "transactions_90d"],
    (customersFirstSeen df).map (fun c =>
      let rs := rowsOf df c
      let recent30 := rs.filter (fun r => window30 ≤ r.invoiceDate)
      let spend30 : Rat := (recent30.map (fun r => r.totalAmount)).sum
      let tx30 : Nat := recent30.length
      let recent90 := rs.filter (fun r => window90 ≤ r.invoiceDate)
      let spend90 : Rat := (recent90.map (fun r => r.totalAmount)).sum
      let tx90 : Nat := recent90.length
      let prev90 := rs.filter (fun r => window180 ≤ r.invoiceDate ∧ r.invoiceDate < window90)
      let spendPrev90 : Rat := (prev90.map (fun r => r.totalAmount)).sum
      [Val.num (c : Rat), Val.num spend30, Val.num spend90,
       Val.num (spend30 / (spend90 + 1 / 100000000)),
       Val.num (spend90 / (spendPrev90 + 1 / 100000000)),
       Val.num ((tx30 : Rat) / 30), Val.num ((tx90 : Rat) / 90),
       Val.num (tx30 : Rat), Val.num (tx90 : Rat)])⟩,
   df)

/-- The flag assigned by feature_engineering.py:185:
`(df['Quantity'] < 0) | (df['InvoiceNo'].str.startswith('C'))`. -/
def isReturnFlag (r : Txn) : Bool :=
  decide (r.quantity < 0) || pyStartsWith r.invoiceNo ("C")

/-- `create_return_features` (feature_engineering.py:172-210): return
counts, rate, returned amount and net amount per customer. Line 185
assigns the `is_return` column on the argument frame in place, so the
returned post-call state differs from the input. -/
def create_return_features (df : TxnDF) : FeatDF × TxnDF :=
  let mutated : TxnDF := { df with isReturnCol := some (df.rows.map isReturnFlag) }
  (⟨["CustomerID", "total_returns", "return_rate", "return_amount", "net_amount"],
    (customersSorted df).map (fun c =>
      let rs := rowsOf df c
      let totalReturns : Nat := (rs.filter isReturnFlag).length
      let returnRate : Rat := (totalReturns : Rat) / (rs.length : Rat)
      let totalAmt : Rat := (rs.map (fun r => r.totalAmount)).sum
      let returnAmt : Rat := ((rs.filter isReturnFlag).map (fun r => r.totalAmount)).sum
      [Val.num (c : Rat), Val.num (totalReturns : Rat), Val.num returnRate,
       Val.num returnAmt, Val.num (totalAmt - returnAmt)])⟩,
   mutated)

/-- `Series.mode` of a list of strings: the values attaining the maximal
occurrence count, sorted ascending in Python string order. -/
def modeStrings (xs : List String) : List String :=
  let u := uniqueFirst xs
  let mx := (u.map (fun v => xs.count v)).foldl max 0
  sortStrings (u.filter (fun v => decide (xs.count v = mx)))

/-- feature_engineering.py:225-227: `x.mode()[0] if len(x.mode()) > 0 else
x.iloc[0]` on the countries of one customer. -/
def primaryCountry (df : TxnDF) (c : Int) : String :=
  let xs := (rowsOf df c).map (fun r => r.country)
  (modeStrings xs).headD (xs.headD (""))

/-- `create_geographic_features` (feature_engineering.py:212-236): one-hot
encoding of each customer's primary country; `get_dummies` emits one
column per observed primary country, sorted ascending. Reads its argument
only. -/
def create_geographic_features (df : TxnDF) : FeatDF × TxnDF :=
  let prim := (customersSorted df).map (fun c => (c, primaryCountry df c))
  let dummyCats := sortStrings (uniqueFirst (prim.map (fun p => p.2)))
  (⟨"CustomerID" :: dummyCats.map (fun d => "country_" ++ d),
    prim.map (fun p =>
      Val.num ((p.1 : Int) : Rat) ::
        dummyCats.map (fun d => Val.num (if p.2 = d then 1 else 0)))⟩,
   df)

/-- `create_temporal_features` (feature_engineering.py:238-279): mean/std of
day-of-week and month, weekend ratio and customer lifetime. Works on a
copy (`df_temp = df.copy()`), so it reads its argument only. The `quarter`
column computed on the copy is never aggregated and does not appear in the
output. -/
def create_temporal_features (df : TxnDF) : FeatDF × TxnDF :=
  (⟨["CustomerID", "avg_day_of_week", "std_day_of_week", "avg_month",
     "std_month", "weekend_ratio", "customer_lifetime_days"],
    (customersSorted df).map (fun c =>
      let rs := rowsOf df c
      let dows : List Rat := rs.map (fun r => ((dayOfWeek r.invoiceDate : Int) : Rat))
      let months : List Rat := rs.map (fun r => ((monthOfDay r.invoiceDate : Int) : Rat))
      let weekend : List Rat := rs.map (fun r =>
        if dayOfWeek r.invoiceDate = 5 ∨ dayOfWeek r.invoiceDate = 6 then (1 : Rat) else 0)
      let firstDate := listMinD (rs.map (fun r => r.invoiceDate)) 0
      let lastDate := listMaxD (rs.map (fun r => r.invoiceDate)) 0
      [Val.num (c : Rat), Val.num (meanR dows), sampleStd dows,
       Val.num (meanR months), sampleStd months, Val.num (meanR weekend),
       Val.num ((lastDate - firstDate : Int) : Rat)])⟩,
   df)

end FeatureEngineer

namespace FeatureEngineer

/-- `left.merge(right, on='CustomerID', how='left')` for right frames whose
`CustomerID` key is unique (every per-customer feature frame here): each
left row is extended with the non-key cells of its unique matching right
row, or with NaN when no right row matches. -/
def leftMergeCID (l r : FeatDF) : FeatDF :=
  let rcols := r.cols.filter (fun c => decide (c ≠ "CustomerID"))
  ⟨l.cols ++ rcols,
   l.rows.map (fun row =>
     let k := l.cell row ("CustomerID")
     match r.rows.find? (fun rr => decide (r.cell rr ("CustomerID") = k)) with
     | some rr => row ++ rcols.map (fun c => r.cell rr c)
     | none => row ++ rcols.map (fun _ => Val.nan))⟩

/-- feature_engineering.py:310-311: `fillna(0)` over the numeric feature
columns (every feature column is numeric; NaN arises only from `std` of a
single observation). -/
def fillna0 (f : FeatDF) : FeatDF :=
  ⟨f.cols, f.rows.map (fun r => r.map (fun v => if v = Val.nan then Val.num 0 else v))⟩

/-- feature_engineering.py:316: the `country_*` columns of the reference
(the Python local `country_columns`). -/
def countryColumnsOf (refCols : List String) : List String :=
  refCols.filter (fun c => pyStartsWith c ("country_"))

/-- The reference country columns missing from the matrix (the columns the
line 319-321 loop adds). -/
def toAddCols (refCols : List String) (af : FeatDF) : List String :=
  (countryColumnsOf refCols).filter (fun c => decide (c ∉ af.cols))

/-- feature_engineering.py:318-321: add each missing reference `country_*`
column with value 0. -/
def withAddedCountry (refCols : List String) (af : FeatDF) : FeatDF :=
  ⟨af.cols ++ toAddCols refCols af,
   af.rows.map (fun r => r ++ (toAddCols refCols af).map (fun _ => Val.num 0))⟩

/-- feature_engineering.py:323-326: the `country_*` columns not in the
reference (the Python local `extra_country_columns`). -/
def extraCols (refCols : List String) (af1 : FeatDF) : List String :=
  af1.cols.filter
    (fun c => pyStartsWith c ("country_") && decide (c ∉ countryColumnsOf refCols))

/-- feature_engineering.py:326: drop the extra country columns. -/
def withoutExtraCountry (refCols : List String) (af1 : FeatDF) : FeatDF :=
  af1.select (af1.cols.filter (fun c => decide (c ∉ extraCols refCols af1)))

/-- feature_engineering.py:314-331: align a feature matrix with the column
set of a reference: add the reference's missing `country_*` columns as 0,
drop `country_*` columns absent from the reference, then reorder to the
reference's column order restricted to the columns present
(the Python local `available_columns`). -/
def alignToReference (refCols : List String) (af : FeatDF) : FeatDF :=
  let af2 := withoutExtraCountry refCols (withAddedCountry refCols af)
  af2.select (refCols.filter (fun c => decide (c ∈ af2.cols)))

/-- `create_all_features` (feature_engineering.py:281-335): run the six
builders in source order (threading the frame state, since
`create_return_features` mutates it), left-merge everything on
`CustomerID`, `fillna(0)`, and align with the reference columns when a
reference frame is supplied. -/
def create_all_features (referenceDate : Int) (df : TxnDF)
    (reference_features : Option FeatDF) : FeatDF × TxnDF :=
  let p1 := create_rfm_features referenceDate df
  let p2 := create_basket_diversity_features p1.2
  let p3 := create_momentum_features referenceDate p2.2
  let p4 := create_return_features p3.2
  let p5 := create_geographic_features p4.2
  let p6 := create_temporal_features p5.2
  let merged := leftMergeCID (leftMergeCID (leftMergeCID (leftMergeCID
    (leftMergeCID p1.1 p2.1) p3.1) p4.1) p5.1) p6.1
  let af := fillna0 merged
  match reference_features with
  | none => (af, p6.2)
  | some ref => (alignToReference ref.cols af, p6.2)

end FeatureEngineer

namespace DataLoader

/-- One raw row of the loaded CSV, with a parsable timestamp and a possibly
missing (`NaN`) CustomerID. -/
structure RawTxn where
  invoiceNo : String
  stockCode : String
  descriptionTxt : String
  quantity : Int
  invoiceDate : Int
  unitPrice : Rat
  customerID : Option Int
  country : String
deriving DecidableEq, Repr

/-- A row after `basic_preprocessing`: the raw columns plus the derived
`is_return` and `TotalAmount` columns. -/
structure PrepTxn where
  invoiceNo : String
  stockCode : String
  descriptionTxt : String
  quantity : Int
  invoiceDate : Int
  unitPrice : Rat
  customerID : Option Int
  country : String
  is_return : Bool
  totalAmount : Rat
deriving DecidableEq, Repr

/-- data_loader.py:78-80: derive `is_return = Quantity < 0` and replace
`Quantity` by its absolute value. `TotalAmount` does not exist yet at this
point; it is filled in later (line 86), modelled by a 0 placeholder. -/
def markReturn (r : RawTxn) : PrepTxn :=
  { invoiceNo := r.invoiceNo, stockCode := r.stockCode,
    descriptionTxt := r.descriptionTxt,
    quantity := if r.quantity < 0 then -r.quantity else r.quantity,
    invoiceDate := r.invoiceDate, unitPrice := r.unitPrice,
    customerID := r.customerID, country := r.country,
    is_return := decide (r.quantity < 0), totalAmount := 0 }

/-- `basic_preprocessing` (data_loader.py:52-95): drop rows with missing
CustomerID, derive `is_return`, take absolute quantities, drop zero
quantities, compute `TotalAmount = Quantity * UnitPrice`, and keep rows at
or before the cutoff date. (`astype(int)` on CustomerID is the identity on
the present values and is not re-modelled.) -/
def basic_preprocessing (raw : List RawTxn) (cutoffDate : Int) : List PrepTxn :=
  let df1 := raw.filter (fun r => r.customerID.isSome)
  let df2 := df1.map markReturn
  let df3 := df2.filter (fun r => decide (0 < r.quantity))
  let df4 := df3.map (fun r => { r with totalAmount := (r.quantity : Rat) * r.unitPrice })
  df4.filter (fun r => decide (r.invoiceDate ≤ cutoffDate))

/-- One row of the customer-level label frame produced by `create_labels`.
(A preprocessed frame feeds the labeler as a `TxnDF`; only `CustomerID`
and `InvoiceDate` are read there.) -/
structure LabelRow where
  customerID : Int
  last_purchase_date : Int
  will_purchase : Int
deriving DecidableEq, Repr

/-- The maximal invoice timestamp of the whole frame
(`df['InvoiceDate'].max()`). -/
def maxInvoiceDate (df : TxnDF) : Int :=
  listMaxD (df.rows.map (fun r => r.invoiceDate)) 0

/-- `create_labels` (data_loader.py:97-128): per-customer last purchase
date, and `will_purchase = 1` exactly for the customers having a
transaction in `(max_date - window, max_date]`. -/
def create_labels (df : TxnDF) (prediction_window_days : Int) : List LabelRow :=
  let maxDate := maxInvoiceDate df
  let predictionCutoff := maxDate - prediction_window_days
  let futurePurchases := uniqueFirst
    ((df.rows.filter (fun r =>
        decide (predictionCutoff < r.invoiceDate) && decide (r.invoiceDate ≤ maxDate))).map
      (fun r => r.customerID))
  (customersSorted df).map (fun c =>
    { customerID := c,
      last_purchase_date := listMaxD ((rowsOf df c).map (fun r => r.invoiceDate)) 0,
      will_purchase := if c ∈ futurePurchases then 1 else 0 })

/-- A linear congruential step, standing in for numpy's seeded Mersenne
Twister. Modelled: the claim about the splitter depends only on the
shuffle being a permutation determined by the seed and the input. -/
def lcg (s : Nat) : Nat := (s * 1103515245 + 12345) % 2147483648

/-- Remove and return the element at an index. -/
def extractAt {α : Type} : Nat → List α → Option (α × List α)
  | _, [] => none
  | 0, x :: xs => some (x, xs)
  | n + 1, x :: xs => (extractAt n xs).map (fun p => (p.1, x :: p.2))

/-- Fuel-driven Fisher-Yates walk: repeatedly extract a seed-chosen
element. -/
def shuffleGo (fuel : Nat) (s : Nat) (l : List Int) : List Int :=
  match fuel with
  | 0 => l
  | m + 1 =>
    (extractAt (lcg s % l.length) l).elim l (fun p => p.1 :: shuffleGo m (lcg s) p.2)

/-- The seeded shuffle used by `train_test_split`. Modelled: numpy's
permutation has a different pseudo-random sequence, but the split
properties claimed depend only on determinism and on the result being a
permutation. -/
def shuffleList (s : Nat) (l : List Int) : List Int := shuffleGo l.length s l

/-- The distinct customer ids of the row list (the Python local
`customers` of data_loader.py:146). -/
def uniqueCustomers (rows : List Txn) : List Int :=
  uniqueFirst (rows.map (fun r => r.customerID))

/-- sklearn `train_test_split` sizing: `ceil(test_size * n)` customers go
to the test side. -/
def testCount (rows : List Txn) (test_size : Rat) : Nat :=
  (Rat.ceil (test_size * ((uniqueCustomers rows).length : Rat))).toNat

/-- The seed-shuffled customer ids. -/
def shuffledCustomers (rows : List Txn) (random_state : Nat) : List Int :=
  shuffleList random_state (uniqueCustomers rows)

/-- `get_train_test_split` (data_loader.py:130-160): shuffle the distinct
customer ids with the seed, reserve `ceil(test_size * n)` of them for
test (sklearn takes the first block of the permutation as test), and route
every transaction row to the side holding its customer. Operates on the
rows of the frame. -/
def get_train_test_split (rows : List Txn) (test_size : Rat) (random_state : Nat) :
    List Txn × List Txn :=
  let testCustomers := (shuffledCustomers rows random_state).take (testCount rows test_size)
  let trainCustomers := (shuffledCustomers rows random_state).drop (testCount rows test_size)
  (rows.filter (fun r => decide (r.customerID ∈ trainCustomers)),
   rows.filter (fun r => decide (r.customerID ∈ testCustomers)))

end DataLoader

/-- Python exceptions relevant to the feature stage. The spec's
`FeatureComputationError` is included so that statements can speak about
it; no definition of it exists anywhere in the repository. -/
inductive PyError where
  | keyError (col : String)
  | featureComputationError
deriving DecidableEq, Repr

/-- A raw frame whose schema may lack columns: the recorded column names
plus the typed data. A column access only succeeds when the name is in
the schema. -/
structure RawFrame where
  cols : List String
  rows : List Txn
deriving DecidableEq, Repr

namespace FeatureEngineer

/-- The columns `create_all_features` actually accesses, in the textual
order of first access along the pipeline (rfm: CustomerID, InvoiceDate,
TotalAmount, InvoiceNo; diversity: StockCode, Description; return:
Quantity; geographic: Country). `UnitPrice` is never accessed: only the
derived `TotalAmount` is read. -/
def accessedColumns : List String :=
  ["CustomerID", "InvoiceDate", "TotalAmount", "InvoiceNo",
   "StockCode", "Description", "Quantity", "Country"]

/-- `create_all_features` on a schema-aware frame: the first access to a
column missing from the schema raises a pandas `KeyError` naming it
(there is no try/except in feature_engineering.py, so the KeyError
propagates). With all accessed columns present but a zero-row table, the
momentum frame `pd.DataFrame([])` (feature_engineering.py:166) has no
columns at all, so the merge `on='CustomerID'` at line 304 raises
`KeyError('CustomerID')`. Otherwise the typed pipeline runs. -/
def create_all_features_raw (referenceDate : Int) (raw : RawFrame)
    (reference_features : Option FeatDF) : Except PyError FeatDF :=
  match accessedColumns.find? (fun c => decide (c ∉ raw.cols)) with
  | some c => Except.error (PyError.keyError c)
  | none =>
    if raw.rows.isEmpty then Except.error (PyError.keyError ("CustomerID"))
    else Except.ok (create_all_features referenceDate ⟨raw.rows, none⟩ reference_features).1

end FeatureEngineer

namespace ModelEvaluator

/-- evaluation.py:79/107/173: `np.argsort(y_proba)[::-1]`. The ascending
argsort is modelled with an explicit total key (probability, then index).
numpy's default sort is insertion sort for short arrays (up to 16
elements), where tied elements are listed by ascending index as here; for
longer arrays its quicksort may permute tied elements, so beyond that
regime only the tie-independent facts (the result is a permutation,
descending in probability) are asserted of this model. -/
def sorted_indices (yp : List Rat) : List Nat :=
  ((List.range yp.length).insertionSort
    (fun i j => yp.getD i 0 < yp.getD j 0 ∨ (yp.getD i 0 = yp.getD j 0 ∧ i ≤ j))).reverse

/-- `y_true[sorted_indices]`: the true labels in ranking order. -/
def sortedTrue (yt yp : List Rat) : List Rat :=
  (sorted_indices yp).map (fun i => yt.getD i 0)

/-- `calculate_precision_at_k` (evaluation.py:63-88) as the association
list of its result dict. -/
def calculate_precision_at_k (yt yp : List Rat) (kValues : List Nat) :
    List (Nat × Rat) :=
  let st := sortedTrue yt yp
  kValues.map (fun k =>
    (k, if k ≤ st.length then (st.take k).sum / (k : Rat) else st.sum / (st.length : Rat)))

/-- `calculate_recall_at_k` (evaluation.py:90-116). -/
def calculate_recall_at_k (yt yp : List Rat) (kValues : List Nat) :
    List (Nat × Rat) :=
  let st := sortedTrue yt yp
  let totalPositive : Rat := yt.sum
  kValues.map (fun k =>
    (k, if k ≤ st.length then (st.take k).sum / totalPositive else 1))

/-- `calculate_business_metrics` (evaluation.py:156-202) without the
optional `customer_values` argument (its default `None`): ROI, net profit
and expected conversions for k in 100, 500, 1000 when enough customers
exist. -/
def calculate_business_metrics (yt yp : List Rat)
    (marketing_cost conversion_value : Rat) : List (String × Rat) :=
  let st := sortedTrue yt yp
  let kList : List Nat := [100, 500, 1000]
  ((kList.filter (fun k => decide (k ≤ st.length))).map (fun (k : Nat) =>
    let totalCost : Rat := (k : Rat) * marketing_cost
    let conversions : Rat := (st.take k).sum
    let revenue : Rat := conversions * conversion_value
    [("roi_at_" ++ toString k, (revenue - totalCost) / totalCost),
     ("net_profit_at_" ++ toString k, revenue - totalCost),
     ("expected_conversions_at_" ++ toString k, conversions)])).flatten

end ModelEvaluator

namespace ModelEvaluator

/-- Modelled from the spec's words, for comparison with `sorted_indices`:
a ranking descending by probability whose ties keep the original input
order (smaller index first). -/
def sorted_indices_spec (yp : List Rat) : List Nat :=
  (List.range yp.length).insertionSort
    (fun i j => yp.getD j 0 < yp.getD i 0 ∨ (yp.getD i 0 = yp.getD j 0 ∧ i ≤ j))

end ModelEvaluator

/-- Row-length well-formedness of a feature frame. -/
def FeatDF.WF (f : FeatDF) : Prop := ∀ r ∈ f.rows, r.length = f.cols.length

/-! Concrete inputs used by witnesses and counterexamples. -/

/-- A transaction of customer 1 from the United Kingdom. -/
def txnUK : Txn := ⟨"I1", "P1", "prod one", 1, 100, 1, "UK", 10⟩

/-- A later transaction of customer 1 from France. -/
def txnFR : Txn := ⟨"I2", "P2", "prod two", 2, 105, 1, "France", 6⟩

/-- A transaction of customer 2. -/
def txnC2 : Txn := ⟨"I3", "P1", "prod one", 1, 101, 2, "UK", 3⟩

/-- Frame whose only customer has a UK/France tie (UK seen first). -/
def dfTie : TxnDF := ⟨[txnUK, txnFR], none⟩

/-- Two-customer frame. -/
def dfTwo : TxnDF := ⟨[txnUK, txnFR, txnC2], none⟩

/-- Reference frame for the alignment witness: a schema holding a
`country_UK` column that the new table does not produce. -/
def refUK : FeatDF := ⟨["CustomerID", "recency_days", "country_UK"], []⟩

/-- A raw row with positive quantity whose invoice number carries the
return marker. -/
def rawC : DataLoader.RawTxn := ⟨"C123", "P1", "prod one", 2, 10, 1, some 7, "UK"⟩

/-- The row `basic_preprocessing` produces from `rawC`. -/
def prepC : DataLoader.PrepTxn := ⟨"C123", "P1", "prod one", 2, 10, 1, some 7, "UK", false, 2⟩

/-- A raw row with a missing CustomerID. -/
def rawNoCID : DataLoader.RawTxn := ⟨"I9", "P9", "prod nine", 5, 10, 2, none, "UK"⟩

/-- Schema lacking the `Country` column. -/
def rawFrameNoCountry : RawFrame :=
  ⟨["CustomerID", "InvoiceDate", "TotalAmount", "InvoiceNo", "StockCode",
    "Description", "Quantity", "UnitPrice"], []⟩

/-- Schema holding every accessed column but not `UnitPrice`, with one
transaction row. -/
def rawFrameNoUnitPrice : RawFrame := ⟨FeatureEngineer.accessedColumns, [txnUK]⟩

/-- Complete schema with no rows at all. -/
def rawFrameEmpty : RawFrame := ⟨FeatureEngineer.accessedColumns, []⟩

/-! Helper lemmas. -/

theorem mem_uniqueFirst {α : Type} [DecidableEq α] (a : α) (l : List α) :
    a ∈ uniqueFirst l ↔ a ∈ l := by
  induction l with
  | nil => simp [uniqueFirst]
  | cons x xs ih =>
    simp only [uniqueFirst, List.mem_cons, List.mem_filter, decide_eq_true_eq]
    constructor
    · rintro (rfl | ⟨ha, _⟩)
      · exact Or.inl rfl
      · exact Or.inr (ih.mp ha)
    · rintro (rfl | ha)
      · exact Or.inl rfl
      · by_cases hax : a = x
        · exact Or.inl hax
        · exact Or.inr ⟨ih.mpr ha, hax⟩

theorem nodup_uniqueFirst {α : Type} [DecidableEq α] (l : List α) :
    (uniqueFirst l).Nodup := by
  induction l with
  | nil => simp [uniqueFirst]
  | cons x xs ih =>
    simp only [uniqueFirst, List.nodup_cons]
    refine ⟨?_, ih.filter _⟩
    intro hx
    rcases List.mem_filter.mp hx with ⟨_, hne⟩
    simp at hne

theorem le_foldl_max {α : Type} [LinearOrder α] (l : List α) (d : α) :
    d ≤ l.foldl max d ∧ ∀ x ∈ l, x ≤ l.foldl max d := by
  induction l generalizing d with
  | nil => simp
  | cons y ys ih =>
    simp only [List.foldl_cons, List.mem_cons]
    refine ⟨le_trans (le_max_left d y) (ih (max d y)).1, ?_⟩
    rintro x (rfl | hx)
    · exact le_trans (le_max_right d x) (ih (max d x)).1
    · exact (ih (max d y)).2 x hx

theorem foldl_max_mem {α : Type} [LinearOrder α] (l : List α) (d : α) :
    l.foldl max d = d ∨ l.foldl max d ∈ l := by
  induction l generalizing d with
  | nil => exact Or.inl rfl
  | cons y ys ih =>
    simp only [List.foldl_cons]
    rcases ih (max d y) with h | h
    · rcases max_choice d y with hm | hm
      · exact Or.inl (h.trans hm)
      · refine Or.inr ?_
        rw [h, hm]
        exact List.mem_cons_self y ys
    · exact Or.inr (List.mem_cons_of_mem _ h)

theorem charListLtB_irrefl (a : List Char) : charListLtB a a = false := by
  induction a with
  | nil => rfl
  | cons c cs ih => simp [charListLtB, lt_irrefl, ih]

theorem charListLtB_trans {a b c : List Char} (hab : charListLtB a b = true)
    (hbc : charListLtB b c = true) : charListLtB a c = true := by
  induction a generalizing b c with
  | nil =>
    cases b with
    | nil => simp [charListLtB] at hab
    | cons y ys =>
      cases c with
      | nil => simp [charListLtB] at hbc
      | cons z zs => simp [charListLtB]
  | cons x xs ih =>
    cases b with
    | nil => simp [charListLtB] at hab
    | cons y ys =>
      cases c with
      | nil => simp [charListLtB] at hbc
      | cons z zs =>
        simp only [charListLtB] at hab hbc ⊢
        by_cases hxy : x < y
        · by_cases hyz : y < z
          · simp [hxy.trans hyz]
          · by_cases hzy : z < y
            · simp [hyz, hzy] at hbc
            · have hyzeq : y = z := le_antisymm (not_lt.mp hzy) (not_lt.mp hyz)
              subst hyzeq
              simp [hxy]
        · by_cases hyx : y < x
          · simp [hxy, hyx] at hab
          · have hxyeq : x = y := le_antisymm (not_lt.mp hyx) (not_lt.mp hxy)
            subst hxyeq
            simp only [lt_irrefl, if_false] at hab
            by_cases hyz : x < z
            · simp [hyz]
            · by_cases hzy : z < x
              · simp [hyz, hzy] at hbc
              · have hyzeq : x = z := le_antisymm (not_lt.mp hzy) (not_lt.mp hyz)
                subst hyzeq
                simp only [lt_irrefl, if_false] at hbc ⊢
                exact ih hab hbc

theorem charListLtB_asymm {a b : List Char} (h1 : charListLtB a b = true) :
    charListLtB b a = false := by
  cases hba : charListLtB b a with
  | false => rfl
  | true =>
    have h := charListLtB_trans h1 hba
    rw [charListLtB_irrefl] at h
    exact absurd h (by simp)

theorem charListLtB_conn {a b : List Char} (h1 : charListLtB a b = false)
    (h2 : charListLtB b a = false) : a = b := by
  induction a generalizing b with
  | nil =>
    cases b with
    | nil => rfl
    | cons y ys => simp [charListLtB] at h1
  | cons x xs ih =>
    cases b with
    | nil => simp [charListLtB] at h2
    | cons y ys =>
      simp only [charListLtB] at h1 h2
      by_cases hxy : x < y
      · simp [hxy] at h1
      · by_cases hyx : y < x
        · simp [hyx, hxy] at h2
        · have hxyeq : x = y := le_antisymm (not_lt.mp hyx) (not_lt.mp hxy)
          subst hxyeq
          simp only [lt_irrefl, if_false] at h1 h2
          rw [ih h1 h2]

theorem strLeB_refl (a : String) : strLeB a a = true := by
  simp [strLeB, strLtB, charListLtB_irrefl]

theorem strLeB_total (a b : String) : strLeB a b = true ∨ strLeB b a = true := by
  unfold strLeB strLtB
  cases h : charListLtB b.data a.data with
  | false => simp
  | true => simp [charListLtB_asymm h]

theorem strLeB_trans {a b c : String} (h1 : strLeB a b = true)
    (h2 : strLeB b c = true) : strLeB a c = true := by
  unfold strLeB strLtB at h1 h2 ⊢
  rw [Bool.not_eq_true'] at h1 h2 ⊢
  cases hca : charListLtB c.data a.data with
  | false => rfl
  | true =>
    exfalso
    cases hbc : charListLtB b.data c.data with
    | true =>
      have := charListLtB_trans hbc hca
      rw [h1] at this
      exact absurd this (by simp)
    | false =>
      have hbceq : b.data = c.data := charListLtB_conn hbc h2
      rw [← hbceq] at hca
      rw [h1] at hca
      exact absurd hca (by simp)

theorem FeatDF.select_cols (f : FeatDF) (ns : List String) : (f.select ns).cols = ns := rfl

theorem FeatDF.select_col (f : FeatDF) (ns : List String) {c : String} (hc : c ∈ ns) :
    (f.select ns).col c = f.col c := by
  unfold FeatDF.select FeatDF.col FeatDF.cell FeatDF.colIdx
  simp only
  rw [List.map_map]
  apply List.map_congr_left
  intro r _
  simp only [Function.comp]
  have hlt : ns.indexOf c < ns.length := List.indexOf_lt_length.mpr hc
  rw [List.getD_eq_getElem?_getD, List.getElem?_map, List.getElem?_eq_getElem hlt]
  simp [List.getElem_indexOf hlt, List.getD_eq_getElem?_getD]

theorem extractAt_nilEq {α : Type} (n : Nat) : DataLoader.extractAt n ([] : List α) = none := by
  cases n <;> rfl

theorem extractAt_perm {α : Type} (n : Nat) (l : List α) (x : α) (r : List α)
    (h : DataLoader.extractAt n l = some (x, r)) : l.Perm (x :: r) := by
  induction l generalizing n x r with
  | nil => rw [extractAt_nilEq] at h; exact absurd h (by simp)
  | cons a tl ih =>
    cases n with
    | zero =>
      have h2 : (a, tl) = (x, r) := Option.some.inj h
      injection h2 with hx hr
      subst hx
      subst hr
      exact List.Perm.refl _
    | succ m =>
      have h2 : (DataLoader.extractAt m tl).map (fun p => (p.1, a :: p.2)) = some (x, r) := h
      cases hm : DataLoader.extractAt m tl with
      | none => rw [hm] at h2; exact absurd h2 (by simp)
      | some p =>
        rw [hm] at h2
        have h3 := Option.some.inj h2
        injection h3 with hx hr
        subst hx
        subst hr
        have hp := ih m p.1 p.2 hm
        exact (hp.cons a).trans (List.Perm.swap p.1 a p.2)

theorem shuffleGo_perm (fuel : Nat) : ∀ (s : Nat) (l : List Int),
    (DataLoader.shuffleGo fuel s l).Perm l := by
  induction fuel with
  | zero => intro s l; exact List.Perm.refl _
  | succ m ih =>
    intro s l
    show ((DataLoader.extractAt (DataLoader.lcg s % l.length) l).elim l
      (fun p => p.1 :: DataLoader.shuffleGo m (DataLoader.lcg s) p.2)).Perm l
    cases hx : DataLoader.extractAt (DataLoader.lcg s % l.length) l with
    | none => exact List.Perm.refl _
    | some p =>
      have hp := extractAt_perm _ _ _ _ hx
      exact ((ih (DataLoader.lcg s) p.2).cons p.1).trans hp.symm

theorem shuffleList_perm (s : Nat) (l : List Int) :
    (DataLoader.shuffleList s l).Perm l :=
  shuffleGo_perm l.length s l

namespace FeatureEngineer

theorem create_rfm_features_wf (rd : Int) (df : TxnDF) :
    ((create_rfm_features rd df).1).WF := by
  intro r hr
  obtain ⟨c, _, rfl⟩ := List.mem_map.mp hr
  rfl

theorem create_basket_diversity_features_wf (df : TxnDF) :
    ((create_basket_diversity_features df).1).WF := by
  intro r hr
  obtain ⟨c, _, rfl⟩ := List.mem_map.mp hr
  rfl

theorem create_momentum_features_wf (rd : Int) (df : TxnDF) :
    ((create_momentum_features rd df).1).WF := by
  intro r hr
  obtain ⟨c, _, rfl⟩ := List.mem_map.mp hr
  rfl

theorem create_return_features_wf (df : TxnDF) :
    ((create_return_features df).1).WF := by
  intro r hr
  obtain ⟨c, _, rfl⟩ := List.mem_map.mp hr
  rfl

theorem create_geographic_features_wf (df : TxnDF) :
    ((create_geographic_features df).1).WF := by
  intro r hr
  obtain ⟨p, _, rfl⟩ := List.mem_map.mp hr
  simp [create_geographic_features, List.length_map]

theorem create_temporal_features_wf (df : TxnDF) :
    ((create_temporal_features df).1).WF := by
  intro r hr
  obtain ⟨c, _, rfl⟩ := List.mem_map.mp hr
  rfl

theorem leftMergeCID_wf {l r : FeatDF} (hl : l.WF) : (leftMergeCID l r).WF := by
  intro row hrow
  simp only [leftMergeCID] at hrow ⊢
  obtain ⟨row0, h0, rfl⟩ := List.mem_map.mp hrow
  cases hf : r.rows.find?
      (fun rr => decide (r.cell rr ("CustomerID") = l.cell row0 ("CustomerID"))) with
  | none => simp [hf, List.length_append, List.length_map, hl row0 h0]
  | some rr => simp [hf, List.length_append, List.length_map, hl row0 h0]

theorem fillna0_wf {f : FeatDF} (h : f.WF) : (fillna0 f).WF := by
  intro row hrow
  obtain ⟨row0, h0, rfl⟩ := List.mem_map.mp hrow
  simp only [fillna0, List.length_map]
  exact h row0 h0

theorem create_all_features_none_wf (rd : Int) (df : TxnDF) :
    ((create_all_features rd df none).1).WF := by
  simp only [create_all_features]
  exact fillna0_wf (leftMergeCID_wf (leftMergeCID_wf (leftMergeCID_wf (leftMergeCID_wf
    (leftMergeCID_wf (create_rfm_features_wf rd df))))))

end FeatureEngineer

namespace FeatureEngineer

theorem mem_toAddCols {refCols : List String} {af : FeatDF} {c : String} :
    c ∈ toAddCols refCols af ↔ c ∈ countryColumnsOf refCols ∧ c ∉ af.cols := by
  simp [toAddCols]

theorem mem_countryColumnsOf {refCols : List String} {c : String} :
    c ∈ countryColumnsOf refCols ↔ c ∈ refCols ∧ pyStartsWith c ("country_") = true := by
  simp [countryColumnsOf]

theorem not_mem_extraCols_of_country {refCols : List String} {af1 : FeatDF} {c : String}
    (hcc : c ∈ countryColumnsOf refCols) : c ∉ extraCols refCols af1 := by
  intro hx
  have h := (List.mem_filter.mp hx).2
  rw [Bool.and_eq_true] at h
  exact absurd hcc (by simpa using h.2)

theorem not_mem_extraCols_of_not_country {refCols : List String} {af1 : FeatDF} {c : String}
    (hs : pyStartsWith c ("country_") = false) : c ∉ extraCols refCols af1 := by
  intro hx
  have h := (List.mem_filter.mp hx).2
  rw [Bool.and_eq_true] at h
  rw [hs] at h
  exact absurd h.1 (by simp)

theorem mem_af2_cols {refCols : List String} {af : FeatDF} {c : String} (hc : c ∈ refCols) :
    c ∈ (withoutExtraCountry refCols (withAddedCountry refCols af)).cols
      ↔ (pyStartsWith c ("country_") = true ∨ c ∈ af.cols) := by
  show c ∈ List.filter _ (withAddedCountry refCols af).cols ↔ _
  rw [List.mem_filter]
  have hA1 : (withAddedCountry refCols af).cols = af.cols ++ toAddCols refCols af := rfl
  rw [hA1]
  cases hs : pyStartsWith c ("country_") with
  | true =>
    have hcc : c ∈ countryColumnsOf refCols := mem_countryColumnsOf.mpr ⟨hc, hs⟩
    constructor
    · intro _; exact Or.inl rfl
    · intro _
      refine ⟨?_, by simpa using not_mem_extraCols_of_country hcc⟩
      by_cases hmem : c ∈ af.cols
      · exact List.mem_append.mpr (Or.inl hmem)
      · exact List.mem_append.mpr (Or.inr (mem_toAddCols.mpr ⟨hcc, hmem⟩))
  | false =>
    have hnotadd : c ∉ toAddCols refCols af := by
      intro hadd
      have := (mem_countryColumnsOf.mp (mem_toAddCols.mp hadd).1).2
      rw [hs] at this
      exact absurd this (by simp)
    constructor
    · rintro ⟨hmem, -⟩
      rcases List.mem_append.mp hmem with h | h
      · exact Or.inr h
      · exact absurd h hnotadd
    · rintro (h | h)
      · exact absurd h (by simp [hs])
      · exact ⟨List.mem_append.mpr (Or.inl h),
          by simpa using @not_mem_extraCols_of_not_country refCols (withAddedCountry refCols af) c hs⟩

theorem alignToReference_cols (refCols : List String) (af : FeatDF) :
    (alignToReference refCols af).cols
      = refCols.filter (fun c => pyStartsWith c ("country_") || decide (c ∈ af.cols)) := by
  show refCols.filter _ = refCols.filter _
  apply List.filter_congr
  intro c hc
  cases hs : pyStartsWith c ("country_") with
  | true =>
    simp only [hs, Bool.true_or, decide_eq_true_eq]
    exact (mem_af2_cols hc).mpr (Or.inl hs)
  | false =>
    simp only [hs, Bool.false_or]
    rw [decide_eq_decide]
    rw [mem_af2_cols hc, hs]
    simp

theorem alignToReference_added_zero (refCols : List String) (af : FeatDF) (hwf : af.WF)
    {c : String} (hc : c ∈ refCols) (hs : pyStartsWith c ("country_") = true)
    (hnot : c ∉ af.cols) :
    c ∈ (alignToReference refCols af).cols
    ∧ ∀ v ∈ (alignToReference refCols af).col c, v = Val.num 0 := by
  have hcc : c ∈ countryColumnsOf refCols := mem_countryColumnsOf.mpr ⟨hc, hs⟩
  have htoAdd : c ∈ toAddCols refCols af := mem_toAddCols.mpr ⟨hcc, hnot⟩
  have haf2 : c ∈ (withoutExtraCountry refCols (withAddedCountry refCols af)).cols :=
    (mem_af2_cols hc).mpr (Or.inl hs)
  have hmemout : c ∈ (alignToReference refCols af).cols := by
    show c ∈ refCols.filter _
    exact List.mem_filter.mpr ⟨hc, by simpa using haf2⟩
  refine ⟨hmemout, ?_⟩
  have h1 : (alignToReference refCols af).col c
      = (withoutExtraCountry refCols (withAddedCountry refCols af)).col c :=
    FeatDF.select_col _ _ hmemout
  have hkept : c ∈ (withAddedCountry refCols af).cols.filter
      (fun x => decide (x ∉ extraCols refCols (withAddedCountry refCols af))) := haf2
  have h2 : (withoutExtraCountry refCols (withAddedCountry refCols af)).col c
      = (withAddedCountry refCols af).col c :=
    FeatDF.select_col _ _ hkept
  rw [h1, h2]
  intro v hv
  obtain ⟨rr, hrr, rfl⟩ := List.mem_map.mp hv
  obtain ⟨r0, h0, rfl⟩ := List.mem_map.mp hrr
  have hlen : r0.length = af.cols.length := hwf r0 h0
  have hlt : (toAddCols refCols af).indexOf c < (toAddCols refCols af).length :=
    List.indexOf_lt_length.mpr htoAdd
  show List.getD _ ((withAddedCountry refCols af).cols.indexOf c) Val.nan = Val.num 0
  have hcols : (withAddedCountry refCols af).cols = af.cols ++ toAddCols refCols af := rfl
  rw [hcols, List.indexOf_append_of_not_mem hnot]
  rw [List.getD_eq_getElem?_getD]
  rw [List.getElem?_append_right (by omega)]
  rw [hlen]
  rw [Nat.add_sub_cancel_left]
  rw [List.getElem?_map, List.getElem?_eq_getElem hlt]
  simp

theorem create_all_features_some_eq (rd : Int) (df : TxnDF) (ref : FeatDF) :
    (create_all_features rd df (some ref)).1
      = alignToReference ref.cols ((create_all_features rd df none).1) := rfl

end FeatureEngineer

/-- C1. Reference alignment of `create_all_features`: for every transaction
table and reference frame, (1) each reference `country_*` column missing
from the newly computed matrix appears in the output with value 0 in every
row, (2) each `country_*` column of the new matrix absent from the
reference is dropped, and (3) the output column order is the reference's
column order restricted to the columns present after the add/drop steps
(a reference column survives exactly when it is a `country_*` column or a
column of the new matrix). -/
theorem claim1_reference_alignment (referenceDate : Int) (df : TxnDF) (ref : FeatDF) :
    (∀ cc ∈ ref.cols, pyStartsWith cc ("country_") = true →
        cc ∉ ((FeatureEngineer.create_all_features referenceDate df none).1).cols →
        cc ∈ ((FeatureEngineer.create_all_features referenceDate df (some ref)).1).cols
        ∧ ∀ v ∈ ((FeatureEngineer.create_all_features referenceDate df (some ref)).1).col cc,
            v = Val.num 0)
    ∧ (∀ cc ∈ ((FeatureEngineer.create_all_features referenceDate df none).1).cols,
        pyStartsWith cc ("country_") = true → cc ∉ ref.cols →
        cc ∉ ((FeatureEngineer.create_all_features referenceDate df (some ref)).1).cols)
    ∧ ((FeatureEngineer.create_all_features referenceDate df (some ref)).1).cols
        = ref.cols.filter (fun c => pyStartsWith c ("country_")
            || decide (c ∈ ((FeatureEngineer.create_all_features referenceDate df none).1).cols)) := by
  refine ⟨?_, ?_, ?_⟩
  · intro cc hcc hs hnot
    rw [FeatureEngineer.create_all_features_some_eq]
    exact FeatureEngineer.alignToReference_added_zero _ _
      (FeatureEngineer.create_all_features_none_wf _ _) hcc hs hnot
  · intro cc _ _ hnotref hmem
    rw [FeatureEngineer.create_all_features_some_eq,
      FeatureEngineer.alignToReference_cols] at hmem
    exact hnotref (List.mem_filter.mp hmem).1
  · rw [FeatureEngineer.create_all_features_some_eq, FeatureEngineer.alignToReference_cols]

/-- Witness for C1: a reference `[CustomerID, recency_days, country_UK]`
against a table producing `country_France`: the output columns are exactly
the reference ones present, `country_UK` is all zeros and `country_France`
is gone. -/
theorem claim1_reference_alignment_witness :
    ("country_UK" ∈ ((FeatureEngineer.create_all_features 200 dfTie (some refUK)).1).cols
      ∧ ∀ v ∈ ((FeatureEngineer.create_all_features 200 dfTie (some refUK)).1).col "country_UK",
          v = Val.num 0)
    ∧ "country_France" ∉ ((FeatureEngineer.create_all_features 200 dfTie (some refUK)).1).cols
    ∧ ((FeatureEngineer.create_all_features 200 dfTie (some refUK)).1).cols
        = ["CustomerID", "recency_days", "country_UK"] := by
  have h := claim1_reference_alignment 200 dfTie refUK
  refine ⟨h.1 ("country_UK") (of_decide_eq_true rfl) (of_decide_eq_true rfl)
      (of_decide_eq_true rfl), ?_, ?_⟩
  · exact h.2.1 ("country_France") (of_decide_eq_true rfl) (of_decide_eq_true rfl)
      (of_decide_eq_true rfl)
  · exact h.2.2.trans (of_decide_eq_true rfl)

/-- C2. Labeler semantics with global anchors: on a non-empty preprocessed
frame, `will_purchase = 1` exactly when the customer has a transaction in
`(max_date - window, max_date]`; a customer all of whose transactions lie
at or before the cutoff gets 0. -/
theorem claim2_labeler_window (df : TxnDF) (w : Int) (hne : df.rows ≠ [])
    (row : DataLoader.LabelRow) (hrow : row ∈ DataLoader.create_labels df w) :
    (row.will_purchase = 1 ↔
      ∃ r ∈ df.rows, r.customerID = row.customerID
        ∧ DataLoader.maxInvoiceDate df - w < r.invoiceDate
        ∧ r.invoiceDate ≤ DataLoader.maxInvoiceDate df)
    ∧ ((∀ r ∈ df.rows, r.customerID = row.customerID →
          r.invoiceDate ≤ DataLoader.maxInvoiceDate df - w) → row.will_purchase = 0) := by
  obtain ⟨c, hcmem, rfl⟩ := List.mem_map.mp hrow
  have hFiff : (c ∈ uniqueFirst ((df.rows.filter (fun r =>
        decide (DataLoader.maxInvoiceDate df - w < r.invoiceDate)
          && decide (r.invoiceDate ≤ DataLoader.maxInvoiceDate df))).map
        (fun r => r.customerID)))
      ↔ ∃ r ∈ df.rows, r.customerID = c
          ∧ DataLoader.maxInvoiceDate df - w < r.invoiceDate
          ∧ r.invoiceDate ≤ DataLoader.maxInvoiceDate df := by
    rw [mem_uniqueFirst]
    constructor
    · intro h
      obtain ⟨r, hr, rfl⟩ := List.mem_map.mp h
      obtain ⟨hrmem, hcond⟩ := List.mem_filter.mp hr
      rw [Bool.and_eq_true, decide_eq_true_eq, decide_eq_true_eq] at hcond
      exact ⟨r, hrmem, rfl, hcond.1, hcond.2⟩
    · rintro ⟨r, hrmem, rfl, h1, h2⟩
      exact List.mem_map.mpr ⟨r, List.mem_filter.mpr ⟨hrmem, by simp [h1, h2]⟩, rfl⟩
  constructor
  · by_cases hf : c ∈ uniqueFirst ((df.rows.filter (fun r =>
        decide (DataLoader.maxInvoiceDate df - w < r.invoiceDate)
          && decide (r.invoiceDate ≤ DataLoader.maxInvoiceDate df))).map
        (fun r => r.customerID))
    · simp only [DataLoader.create_labels, if_pos hf]
      exact iff_of_true (by trivial) (hFiff.mp hf)
    · simp only [DataLoader.create_labels, if_neg hf]
      constructor
      · intro h01
        exact absurd h01 (by norm_num)
      · intro hex
        exact absurd (hFiff.mpr hex) hf
  · intro hall
    by_cases hf : c ∈ uniqueFirst ((df.rows.filter (fun r =>
        decide (DataLoader.maxInvoiceDate df - w < r.invoiceDate)
          && decide (r.invoiceDate ≤ DataLoader.maxInvoiceDate df))).map
        (fun r => r.customerID))
    · exfalso
      obtain ⟨r, hrmem, hrc, h1, _⟩ := hFiff.mp hf
      have := hall r hrmem hrc
      omega
    · simp only [DataLoader.create_labels, if_neg hf]

/-- Witness for C2: in `dfTwo` (max date 105, window 3) the label row of
customer 1 is 1, and the theorem recovers a transaction inside the
window. -/
theorem claim2_labeler_window_witness :
    ∃ r ∈ dfTwo.rows, r.customerID = (DataLoader.LabelRow.mk 1 105 1).customerID
      ∧ DataLoader.maxInvoiceDate dfTwo - 3 < r.invoiceDate
      ∧ r.invoiceDate ≤ DataLoader.maxInvoiceDate dfTwo :=
  (claim2_labeler_window dfTwo 3 (of_decide_eq_true rfl) ⟨1, 105, 1⟩
    (of_decide_eq_true rfl)).1.mp rfl

/-- C3. Preprocessing invariant: for unit prices that are non-negative,
every row surviving `basic_preprocessing` has positive quantity,
non-negative total amount, a present customer id, and a timestamp at or
before the cutoff. -/
theorem claim3_preprocessing_invariant (raw : List DataLoader.RawTxn) (cutoff : Int)
    (hup : ∀ r ∈ raw, 0 ≤ r.unitPrice) :
    ∀ t ∈ DataLoader.basic_preprocessing raw cutoff,
      0 < t.quantity ∧ 0 ≤ t.totalAmount ∧ t.customerID.isSome = true
        ∧ t.invoiceDate ≤ cutoff := by
  intro t ht
  unfold DataLoader.basic_preprocessing at ht
  simp only [List.mem_filter, List.mem_map, decide_eq_true_eq] at ht
  obtain ⟨⟨r3, ⟨⟨r1, ⟨hr1raw, hr1some⟩, rfl⟩, hq⟩, rfl⟩, hcut⟩ := ht
  refine ⟨hq, ?_, hr1some, hcut⟩
  have h0q : (0 : Rat) ≤ ((DataLoader.markReturn r1).quantity : Rat) := by
    exact_mod_cast le_of_lt hq
  exact mul_nonneg h0q (hup r1 hr1raw)

/-- Witness for C3: the concrete table `[rawC, rawNoCID]` with cutoff 100;
the surviving row `prepC` satisfies all four invariants. -/
theorem claim3_preprocessing_invariant_witness :
    0 < prepC.quantity ∧ 0 ≤ prepC.totalAmount ∧ prepC.customerID.isSome = true
      ∧ prepC.invoiceDate ≤ 100 :=
  claim3_preprocessing_invariant [rawC, rawNoCID] 100
    (by with_unfolding_all exact of_decide_eq_true rfl) prepC
    (by with_unfolding_all exact of_decide_eq_true rfl)

/-- C9. Idempotence/determinism: running `create_all_features` (no
reference) a second time, on the frame state left behind by the first run,
yields the same feature table; the output depends only on the rows, and
the first run changes only the `is_return` column. -/
theorem claim9_idempotent (referenceDate : Int) (df : TxnDF) :
    (FeatureEngineer.create_all_features referenceDate
        (FeatureEngineer.create_all_features referenceDate df none).2 none).1
      = (FeatureEngineer.create_all_features referenceDate df none).1 := by
  cases df with
  | mk rows irc => rfl

/-- C10 (amended). Frame effects of the pipeline: five of the six builders
return their argument frame unchanged, but `create_return_features` - and
therefore `create_all_features` - overwrites the `is_return` column of its
argument in place, changing nothing else. -/
theorem claim10_input_mutation (referenceDate : Int) (df : TxnDF) (ref : Option FeatDF) :
    (FeatureEngineer.create_rfm_features referenceDate df).2 = df
    ∧ (FeatureEngineer.create_basket_diversity_features df).2 = df
    ∧ (FeatureEngineer.create_momentum_features referenceDate df).2 = df
    ∧ (FeatureEngineer.create_geographic_features df).2 = df
    ∧ (FeatureEngineer.create_temporal_features df).2 = df
    ∧ (FeatureEngineer.create_return_features df).2
        = { df with isReturnCol := some (df.rows.map FeatureEngineer.isReturnFlag) }
    ∧ (FeatureEngineer.create_all_features referenceDate df ref).2
        = { df with isReturnCol := some (df.rows.map FeatureEngineer.isReturnFlag) } := by
  refine ⟨rfl, rfl, rfl, rfl, rfl, rfl, ?_⟩
  cases ref with
  | none => rfl
  | some r => rfl

/-- Counterexample for C10 as stated: on a concrete frame without an
`is_return` column, both `create_return_features` and `create_all_features`
leave their input changed. -/
theorem claim10_counterexample :
    (FeatureEngineer.create_return_features dfTie).2 ≠ dfTie
    ∧ (FeatureEngineer.create_all_features 200 dfTie none).2 ≠ dfTie :=
  ⟨of_decide_eq_true rfl, of_decide_eq_true rfl⟩

/-- C7 (amended). `is_return` semantics: `basic_preprocessing` derives
`is_return` from the quantity sign only (every output row inherits the
flag `quantity < 0` of its source row); the invoice-prefix disjunct is
applied later, by `create_return_features`, whose recomputed column is
`quantity < 0 OR invoice starts with C`. -/
theorem claim7_is_return_semantics :
    (∀ r : DataLoader.RawTxn,
        (DataLoader.markReturn r).is_return = decide (r.quantity < 0))
    ∧ (∀ (raw : List DataLoader.RawTxn) (cutoff : Int),
        ∀ t ∈ DataLoader.basic_preprocessing raw cutoff,
          ∃ r ∈ raw, t.is_return = decide (r.quantity < 0) ∧ t.invoiceNo = r.invoiceNo)
    ∧ (∀ df : TxnDF, (FeatureEngineer.create_return_features df).2.isReturnCol
        = some (df.rows.map FeatureEngineer.isReturnFlag))
    ∧ (∀ r : Txn, FeatureEngineer.isReturnFlag r
        = (decide (r.quantity < 0) || pyStartsWith r.invoiceNo ("C"))) := by
  refine ⟨fun r => rfl, ?_, fun df => rfl, fun r => rfl⟩
  intro raw cutoff t ht
  unfold DataLoader.basic_preprocessing at ht
  simp only [List.mem_filter, List.mem_map, decide_eq_true_eq] at ht
  obtain ⟨⟨r3, ⟨⟨r1, ⟨hr1raw, _⟩, rfl⟩, _⟩, rfl⟩, _⟩ := ht
  exact ⟨r1, hr1raw, rfl, rfl⟩

/-- Witness for C7 (amended): the preprocessed row of `rawC` carries
`is_return = (quantity < 0)` from its raw row. -/
theorem claim7_is_return_semantics_witness :
    ∃ r ∈ [rawC], prepC.is_return = decide (r.quantity < 0)
      ∧ prepC.invoiceNo = r.invoiceNo :=
  claim7_is_return_semantics.2.1 [rawC] 100 prepC
    (by with_unfolding_all exact of_decide_eq_true rfl)

/-- Counterexample for C7 as stated: `rawC` has positive quantity and a
`C`-prefixed invoice, so the claim predicts `is_return = true` after
preprocessing, yet the code produces `false`. -/
theorem claim7_counterexample :
    (DataLoader.basic_preprocessing [rawC] 100).map (fun t => t.is_return) = [false]
    ∧ (decide (rawC.quantity < 0) || pyStartsWith rawC.invoiceNo ("C")) = true := by
  with_unfolding_all exact ⟨of_decide_eq_true rfl, of_decide_eq_true rfl⟩

/-- C5 (amended). Missing-column failure: when the input frame lacks one of
the columns the pipeline actually accesses, `create_all_features` fails
with a pandas `KeyError` naming a missing accessed column. (The spec's
`FeatureComputationError` is defined nowhere in the repository; also,
`UnitPrice` is not among the accessed columns - only the derived
`TotalAmount` is read.) -/
theorem claim5_missing_column (referenceDate : Int) (raw : RawFrame) (ref : Option FeatDF)
    (h : ∃ c ∈ FeatureEngineer.accessedColumns, c ∉ raw.cols) :
    ∃ c ∈ FeatureEngineer.accessedColumns, c ∉ raw.cols
      ∧ FeatureEngineer.create_all_features_raw referenceDate raw ref
          = Except.error (PyError.keyError c) := by
  cases hf : FeatureEngineer.accessedColumns.find? (fun c => decide (c ∉ raw.cols)) with
  | none =>
    exfalso
    obtain ⟨c, hcmem, hcnot⟩ := h
    have hnone := List.find?_eq_none.mp hf c hcmem
    simp only [decide_eq_true_eq] at hnone
    exact hnone hcnot
  | some c =>
    have hp := List.find?_some hf
    rw [decide_eq_true_eq] at hp
    refine ⟨c, List.mem_of_find?_eq_some hf, hp, ?_⟩
    unfold FeatureEngineer.create_all_features_raw
    rw [hf]

/-- Witness for C5 (amended): a schema without `Country`. -/
theorem claim5_missing_column_witness :
    ∃ c ∈ FeatureEngineer.accessedColumns, c ∉ rawFrameNoCountry.cols
      ∧ FeatureEngineer.create_all_features_raw 0 rawFrameNoCountry none
          = Except.error (PyError.keyError c) :=
  claim5_missing_column 0 rawFrameNoCountry none
    ⟨"Country", of_decide_eq_true rfl, of_decide_eq_true rfl⟩

/-- Counterexample for C5 as stated: on a frame missing `Country` the
pipeline raises `KeyError('Country')`, which is not the
`FeatureComputationError` the claim requires; a one-row frame missing
only `UnitPrice` does not fail at all; and a zero-row frame with a
complete schema fails with `KeyError('CustomerID')` at the momentum
merge, again not `FeatureComputationError`. -/
theorem claim5_counterexample :
    FeatureEngineer.create_all_features_raw 0 rawFrameNoCountry none
        = Except.error (PyError.keyError ("Country"))
    ∧ PyError.keyError ("Country") ≠ PyError.featureComputationError
    ∧ (FeatureEngineer.create_all_features_raw 0 rawFrameNoUnitPrice none).toOption.isSome
        = true
    ∧ FeatureEngineer.create_all_features_raw 0 rawFrameEmpty none
        = Except.error (PyError.keyError ("CustomerID")) := by
  refine ⟨by with_unfolding_all rfl, of_decide_eq_true rfl, by with_unfolding_all rfl,
    by with_unfolding_all rfl⟩

theorem mem_modeStrings {xs : List String} {v : String} :
    v ∈ FeatureEngineer.modeStrings xs
      ↔ v ∈ xs ∧ xs.count v
          = ((uniqueFirst xs).map (fun u => xs.count u)).foldl max 0 := by
  unfold FeatureEngineer.modeStrings
  rw [sortStrings, List.Perm.mem_iff (List.perm_insertionSort _ _)]
  rw [List.mem_filter, mem_uniqueFirst]
  simp

theorem modeStrings_sorted (xs : List String) :
    List.Sorted (fun a b => strLeB a b = true) (FeatureEngineer.modeStrings xs) := by
  haveI : IsTotal String (fun a b => strLeB a b = true) := ⟨strLeB_total⟩
  haveI : IsTrans String (fun a b => strLeB a b = true) := ⟨fun a b c => strLeB_trans⟩
  exact List.sorted_insertionSort _ _

theorem modeStrings_exists {xs : List String} (hne : xs ≠ []) :
    ∃ y, y ∈ FeatureEngineer.modeStrings xs := by
  rcases foldl_max_mem ((uniqueFirst xs).map (fun u => xs.count u)) 0 with h0 | hmem
  · exfalso
    cases xs with
    | nil => exact hne rfl
    | cons a tl =>
      have hmem0 : a ∈ uniqueFirst (a :: tl) := (mem_uniqueFirst a (a :: tl)).mpr
        (List.mem_cons_self a tl)
      have hle := (le_foldl_max ((uniqueFirst (a :: tl)).map
        (fun u => (a :: tl).count u)) 0).2 ((a :: tl).count a)
        (List.mem_map.mpr ⟨a, hmem0, rfl⟩)
      rw [h0] at hle
      have hpos : 0 < (a :: tl).count a :=
        List.count_pos_iff.mpr (List.mem_cons_self a tl)
      omega
  · obtain ⟨y, hy, hcy⟩ := List.mem_map.mp hmem
    exact ⟨y, mem_modeStrings.mpr ⟨(mem_uniqueFirst y xs).mp hy, hcy⟩⟩

/-- C6 (amended). Geographic tie-break: the primary country is a country of
maximal occurrence count among the customer's rows, and among the tied
candidates it is the least in Python string order (pandas `mode` returns
the tied values sorted ascending and the code takes `mode()[0]`), not the
first-seen one. -/
theorem claim6_tiebreak (df : TxnDF) (c : Int) (hc : c ∈ customersSorted df) :
    FeatureEngineer.primaryCountry df c
        ∈ FeatureEngineer.modeStrings ((rowsOf df c).map (fun r => r.country))
    ∧ (∀ z ∈ FeatureEngineer.modeStrings ((rowsOf df c).map (fun r => r.country)),
        strLeB (FeatureEngineer.primaryCountry df c) z = true)
    ∧ (∀ v : String,
        v ∈ FeatureEngineer.modeStrings ((rowsOf df c).map (fun r => r.country))
          ↔ v ∈ (rowsOf df c).map (fun r => r.country)
            ∧ ((rowsOf df c).map (fun r => r.country)).count v
              = ((uniqueFirst ((rowsOf df c).map (fun r => r.country))).map
                  (fun u => ((rowsOf df c).map (fun r => r.country)).count u)).foldl max 0) := by
  have hcmem : c ∈ df.rows.map (fun r => r.customerID) := by
    have h1 := (List.perm_insertionSort (fun a b : Int => a ≤ b) _).mem_iff.mp hc
    exact (mem_uniqueFirst c _).mp h1
  obtain ⟨r, hr, hrc⟩ := List.mem_map.mp hcmem
  have hrOf : r ∈ rowsOf df c := List.mem_filter.mpr ⟨hr, by simp [hrc]⟩
  have hne : (rowsOf df c).map (fun r => r.country) ≠ [] :=
    List.ne_nil_of_mem (List.mem_map.mpr ⟨r, hrOf, rfl⟩)
  obtain ⟨y, hy⟩ := modeStrings_exists hne
  cases hm : FeatureEngineer.modeStrings ((rowsOf df c).map (fun r => r.country)) with
  | nil => rw [hm] at hy; cases hy
  | cons m ms =>
    have hprim : FeatureEngineer.primaryCountry df c = m := by
      show (FeatureEngineer.modeStrings ((rowsOf df c).map (fun r => r.country))).headD
        (((rowsOf df c).map (fun r => r.country)).headD ("")) = m
      rw [hm]
      rfl
    refine ⟨?_, ?_, fun v => by rw [← hm]; exact mem_modeStrings⟩
    · rw [hprim]
      exact List.mem_cons_self m ms
    · intro z hz
      rw [hprim]
      rcases List.mem_cons.mp hz with rfl | hz2
      · exact strLeB_refl z
      · have hs := modeStrings_sorted ((rowsOf df c).map (fun r => r.country))
        rw [hm] at hs
        exact List.rel_of_sorted_cons hs z hz2

/-- Witness for C6 (amended): customer 1 of `dfTie` with countries
`[UK, France]` tied; the chosen primary country is the string-least tied
candidate. -/
theorem claim6_tiebreak_witness :
    FeatureEngineer.primaryCountry dfTie 1
        ∈ FeatureEngineer.modeStrings ((rowsOf dfTie 1).map (fun r => r.country))
    ∧ (∀ z ∈ FeatureEngineer.modeStrings ((rowsOf dfTie 1).map (fun r => r.country)),
        strLeB (FeatureEngineer.primaryCountry dfTie 1) z = true)
    ∧ (∀ v : String,
        v ∈ FeatureEngineer.modeStrings ((rowsOf dfTie 1).map (fun r => r.country))
          ↔ v ∈ (rowsOf dfTie 1).map (fun r => r.country)
            ∧ ((rowsOf dfTie 1).map (fun r => r.country)).count v
              = ((uniqueFirst ((rowsOf dfTie 1).map (fun r => r.country))).map
                  (fun u => ((rowsOf dfTie 1).map (fun r => r.country)).count u)).foldl max 0) :=
  claim6_tiebreak dfTie 1 (of_decide_eq_true rfl)

/-- Counterexample for C6 as stated: for the UK/France tie of `dfTie`
(counts equal, UK seen first) the code picks France, the lexicographically
smaller name, and its one-hot frame carries `country_France = 1` and no
`country_UK` column. -/
theorem claim6_counterexample :
    FeatureEngineer.primaryCountry dfTie 1 = "France"
    ∧ ((rowsOf dfTie 1).map (fun r => r.country)).headD ("") = "UK"
    ∧ ((rowsOf dfTie 1).map (fun r => r.country)).count ("UK")
        = ((rowsOf dfTie 1).map (fun r => r.country)).count ("France")
    ∧ (FeatureEngineer.create_geographic_features dfTie).1
        = ⟨["CustomerID", "country_France"], [[Val.num 1, Val.num 1]]⟩ := by
  refine ⟨?_, rfl, rfl, ?_⟩ <;> with_unfolding_all exact of_decide_eq_true rfl

/-- C4. Splitter partition and determinism: train/test customer sets are
disjoint, their union is the full customer set, all rows of one customer
land on the same side (each row lands on exactly one side), and the split
is a deterministic function of table, fraction and seed. -/
theorem claim4_split_partition (rows : List Txn) (test_size : Rat) (seed : Nat)
    (h0 : 0 < test_size) (h1 : test_size < 1) :
    (∀ c : Int,
      (c ∈ (DataLoader.get_train_test_split rows test_size seed).1.map (fun r => r.customerID)
        ∨ c ∈ (DataLoader.get_train_test_split rows test_size seed).2.map (fun r => r.customerID))
      ↔ c ∈ rows.map (fun r => r.customerID))
    ∧ (∀ c : Int,
        c ∈ (DataLoader.get_train_test_split rows test_size seed).1.map (fun r => r.customerID) →
        c ∉ (DataLoader.get_train_test_split rows test_size seed).2.map (fun r => r.customerID))
    ∧ (∀ r r' : Txn, r ∈ rows → r' ∈ rows → r.customerID = r'.customerID →
        ((r ∈ (DataLoader.get_train_test_split rows test_size seed).1
            ↔ r' ∈ (DataLoader.get_train_test_split rows test_size seed).1)
          ∧ (r ∈ (DataLoader.get_train_test_split rows test_size seed).2
            ↔ r' ∈ (DataLoader.get_train_test_split rows test_size seed).2)))
    ∧ (∀ r ∈ rows, (r ∈ (DataLoader.get_train_test_split rows test_size seed).1
        ↔ r ∉ (DataLoader.get_train_test_split rows test_size seed).2))
    ∧ DataLoader.get_train_test_split rows test_size seed
        = DataLoader.get_train_test_split rows test_size seed := by
  have hperm : (DataLoader.shuffledCustomers rows seed).Perm (DataLoader.uniqueCustomers rows) :=
    shuffleList_perm seed (DataLoader.uniqueCustomers rows)
  have hnd : (DataLoader.shuffledCustomers rows seed).Nodup :=
    hperm.symm.nodup (nodup_uniqueFirst _)
  have hdisj : ((DataLoader.shuffledCustomers rows seed).take
        (DataLoader.testCount rows test_size)).Disjoint
      ((DataLoader.shuffledCustomers rows seed).drop (DataLoader.testCount rows test_size)) :=
    List.disjoint_take_drop hnd le_rfl
  have hmemTr : ∀ x : Txn, x ∈ (DataLoader.get_train_test_split rows test_size seed).1
      ↔ x ∈ rows ∧ x.customerID ∈ (DataLoader.shuffledCustomers rows seed).drop
          (DataLoader.testCount rows test_size) := by
    intro x
    show x ∈ rows.filter _ ↔ _
    rw [List.mem_filter, decide_eq_true_eq]
  have hmemTe : ∀ x : Txn, x ∈ (DataLoader.get_train_test_split rows test_size seed).2
      ↔ x ∈ rows ∧ x.customerID ∈ (DataLoader.shuffledCustomers rows seed).take
          (DataLoader.testCount rows test_size) := by
    intro x
    show x ∈ rows.filter _ ↔ _
    rw [List.mem_filter, decide_eq_true_eq]
  have hsides : ∀ x : Txn, x ∈ rows →
      x.customerID ∈ (DataLoader.shuffledCustomers rows seed).take
          (DataLoader.testCount rows test_size)
      ∨ x.customerID ∈ (DataLoader.shuffledCustomers rows seed).drop
          (DataLoader.testCount rows test_size) := by
    intro x hx
    have hcu : x.customerID ∈ DataLoader.uniqueCustomers rows :=
      (mem_uniqueFirst _ _).mpr (List.mem_map.mpr ⟨x, hx, rfl⟩)
    have hsh : x.customerID ∈ DataLoader.shuffledCustomers rows seed := hperm.mem_iff.mpr hcu
    rw [← List.take_append_drop (DataLoader.testCount rows test_size)
      (DataLoader.shuffledCustomers rows seed), List.mem_append] at hsh
    exact hsh
  refine ⟨?_, ?_, ?_, ?_, rfl⟩
  · intro c
    constructor
    · rintro (hc | hc) <;>
        · obtain ⟨x, hx, rfl⟩ := List.mem_map.mp hc
          first
            | exact List.mem_map.mpr ⟨x, ((hmemTr x).mp hx).1, rfl⟩
            | exact List.mem_map.mpr ⟨x, ((hmemTe x).mp hx).1, rfl⟩
    · intro hc
      obtain ⟨x, hx, rfl⟩ := List.mem_map.mp hc
      rcases hsides x hx with hside | hside
      · exact Or.inr (List.mem_map.mpr ⟨x, (hmemTe x).mpr ⟨hx, hside⟩, rfl⟩)
      · exact Or.inl (List.mem_map.mpr ⟨x, (hmemTr x).mpr ⟨hx, hside⟩, rfl⟩)
  · intro c htrm htem
    obtain ⟨x, hx, rfl⟩ := List.mem_map.mp htrm
    obtain ⟨x2, hx2, hcid2⟩ := List.mem_map.mp htem
    have hdropmem := ((hmemTr x).mp hx).2
    have htakemem := ((hmemTe x2).mp hx2).2
    rw [hcid2] at htakemem
    exact hdisj htakemem hdropmem
  · intro r r2 hr hr2 hcid
    constructor
    · rw [hmemTr r, hmemTr r2, hcid]
      exact and_congr_left (fun _ => ⟨fun _ => hr2, fun _ => hr⟩)
    · rw [hmemTe r, hmemTe r2, hcid]
      exact and_congr_left (fun _ => ⟨fun _ => hr2, fun _ => hr⟩)
  · intro r hr
    constructor
    · intro htr hte
      exact hdisj ((hmemTe r).mp hte).2 ((hmemTr r).mp htr).2
    · intro hnte
      rcases hsides r hr with hside | hside
      · exact absurd ((hmemTe r).mpr ⟨hr, hside⟩) hnte
      · exact (hmemTr r).mpr ⟨hr, hside⟩

/-- Witness for C4: the two-customer table `dfTwo.rows` with fraction 1/2
and seed 0. -/
theorem claim4_split_partition_witness :
    (∀ c : Int,
      (c ∈ (DataLoader.get_train_test_split dfTwo.rows (1/2) 0).1.map (fun r => r.customerID)
        ∨ c ∈ (DataLoader.get_train_test_split dfTwo.rows (1/2) 0).2.map (fun r => r.customerID))
      ↔ c ∈ dfTwo.rows.map (fun r => r.customerID))
    ∧ (∀ c : Int,
        c ∈ (DataLoader.get_train_test_split dfTwo.rows (1/2) 0).1.map (fun r => r.customerID) →
        c ∉ (DataLoader.get_train_test_split dfTwo.rows (1/2) 0).2.map (fun r => r.customerID))
    ∧ (∀ r r' : Txn, r ∈ dfTwo.rows → r' ∈ dfTwo.rows → r.customerID = r'.customerID →
        ((r ∈ (DataLoader.get_train_test_split dfTwo.rows (1/2) 0).1
            ↔ r' ∈ (DataLoader.get_train_test_split dfTwo.rows (1/2) 0).1)
          ∧ (r ∈ (DataLoader.get_train_test_split dfTwo.rows (1/2) 0).2
            ↔ r' ∈ (DataLoader.get_train_test_split dfTwo.rows (1/2) 0).2)))
    ∧ (∀ r ∈ dfTwo.rows, (r ∈ (DataLoader.get_train_test_split dfTwo.rows (1/2) 0).1
        ↔ r ∉ (DataLoader.get_train_test_split dfTwo.rows (1/2) 0).2))
    ∧ DataLoader.get_train_test_split dfTwo.rows (1/2) 0
        = DataLoader.get_train_test_split dfTwo.rows (1/2) 0 :=
  claim4_split_partition dfTwo.rows (1/2) 0
    (by with_unfolding_all exact of_decide_eq_true rfl)
    (by with_unfolding_all exact of_decide_eq_true rfl)

/-- C8 (amended). Evaluator ranking tie-break: the ranking shared by
precision-at-k, recall-at-k and the business metrics is a permutation of
the positions, descending by probability; the tie order is NOT stable by
input order - `np.argsort(..)[::-1]` reverses an ascending sort, which in
numpy's small-array regime flips tied runs into reverse input order (the
counterexample), and for longer arrays leaves the tie order unspecified
by numpy's unstable default sort. The three metrics are determined by the
ranked labels (and the label sum for recall). Only tie-independent
ordering facts are asserted universally. -/
theorem claim8_ranking_tiebreak :
    (∀ yp : List Rat,
      (ModelEvaluator.sorted_indices yp).Perm (List.range yp.length)
      ∧ (ModelEvaluator.sorted_indices yp).Pairwise
          (fun i j => yp.getD j 0 ≤ yp.getD i 0))
    ∧ (∀ (yt1 yp1 yt2 yp2 : List Rat) (kv : List Nat) (mc cv : Rat),
        ModelEvaluator.sortedTrue yt1 yp1 = ModelEvaluator.sortedTrue yt2 yp2 →
        yt1.sum = yt2.sum →
        ModelEvaluator.calculate_precision_at_k yt1 yp1 kv
            = ModelEvaluator.calculate_precision_at_k yt2 yp2 kv
        ∧ ModelEvaluator.calculate_recall_at_k yt1 yp1 kv
            = ModelEvaluator.calculate_recall_at_k yt2 yp2 kv
        ∧ ModelEvaluator.calculate_business_metrics yt1 yp1 mc cv
            = ModelEvaluator.calculate_business_metrics yt2 yp2 mc cv) := by
  constructor
  · intro yp
    haveI htot : IsTotal Nat (fun i j =>
        yp.getD i 0 < yp.getD j 0 ∨ (yp.getD i 0 = yp.getD j 0 ∧ i ≤ j)) := by
      constructor
      intro a b
      rcases lt_trichotomy (yp.getD a 0) (yp.getD b 0) with h | h | h
      · exact Or.inl (Or.inl h)
      · rcases Nat.le_total a b with hab | hab
        · exact Or.inl (Or.inr ⟨h, hab⟩)
        · exact Or.inr (Or.inr ⟨h.symm, hab⟩)
      · exact Or.inr (Or.inl h)
    haveI htrans : IsTrans Nat (fun i j =>
        yp.getD i 0 < yp.getD j 0 ∨ (yp.getD i 0 = yp.getD j 0 ∧ i ≤ j)) := by
      constructor
      intro a b c hab hbc
      rcases hab with h | ⟨he, hle⟩ <;> rcases hbc with h2 | ⟨he2, hle2⟩
      · exact Or.inl (h.trans h2)
      · exact Or.inl (lt_of_lt_of_eq h he2)
      · exact Or.inl (lt_of_eq_of_lt he h2)
      · exact Or.inr ⟨he.trans he2, hle.trans hle2⟩
    have hsorted := List.sorted_insertionSort (fun i j =>
        yp.getD i 0 < yp.getD j 0 ∨ (yp.getD i 0 = yp.getD j 0 ∧ i ≤ j))
      (List.range yp.length)
    refine ⟨(List.reverse_perm _).trans (List.perm_insertionSort _ _), ?_⟩
    rw [ModelEvaluator.sorted_indices, List.pairwise_reverse]
    exact hsorted.imp (fun hab => by
      rcases hab with h | ⟨he, -⟩
      · exact le_of_lt h
      · exact le_of_eq he)
  · intro yt1 yp1 yt2 yp2 kv mc cv hst hsum
    refine ⟨?_, ?_, ?_⟩
    · simp only [ModelEvaluator.calculate_precision_at_k]
      rw [hst]
    · simp only [ModelEvaluator.calculate_recall_at_k]
      rw [hst, hsum]
    · simp only [ModelEvaluator.calculate_business_metrics]
      rw [hst]

/-- Witness for C8 (amended): two different inputs with the same ranked
label sequence and label sum produce identical precision, recall and
business metrics. -/
theorem claim8_ranking_tiebreak_witness :
    ModelEvaluator.calculate_precision_at_k [1, 0] [1/2, 1/2] [1, 2]
        = ModelEvaluator.calculate_precision_at_k [0, 1] [1/2, 1/3] [1, 2]
    ∧ ModelEvaluator.calculate_recall_at_k [1, 0] [1/2, 1/2] [1, 2]
        = ModelEvaluator.calculate_recall_at_k [0, 1] [1/2, 1/3] [1, 2]
    ∧ ModelEvaluator.calculate_business_metrics [1, 0] [1/2, 1/2] 10 100
        = ModelEvaluator.calculate_business_metrics [0, 1] [1/2, 1/3] 10 100 :=
  claim8_ranking_tiebreak.2 [1, 0] [1/2, 1/2] [0, 1] [1/2, 1/3] [1, 2] 10 100
    (by with_unfolding_all exact of_decide_eq_true rfl)
    (by with_unfolding_all exact of_decide_eq_true rfl)

/-- Counterexample for C8 as stated: with tied probabilities `[1/2, 1/2]`
the code ranks index 1 before index 0 (reverse input order), the
spec-stable ranking would be `[0, 1]`, and precision/recall at 1 for
`y_true = [1, 0]` are 0 instead of the 1 the stable order dictates. -/
theorem claim8_counterexample :
    ModelEvaluator.sorted_indices [1/2, 1/2] = [1, 0]
    ∧ ModelEvaluator.sorted_indices_spec [1/2, 1/2] = [0, 1]
    ∧ ModelEvaluator.sortedTrue [1, 0] [1/2, 1/2] = [0, 1]
    ∧ ModelEvaluator.calculate_precision_at_k [1, 0] [1/2, 1/2] [1] = [(1, 0)]
    ∧ ModelEvaluator.calculate_recall_at_k [1, 0] [1/2, 1/2] [1] = [(1, 0)] := by
  with_unfolding_all exact
    ⟨of_decide_eq_true rfl, of_decide_eq_true rfl, of_decide_eq_true rfl,
     of_decide_eq_true rfl, of_decide_eq_true rfl⟩
